import Mathlib

/-!
Shallow embedding of the readiness-wait / connectivity-retry program
(`main.go`, `main_test.go`): the `waitFor` polling loop, the test
harness's readiness loop in `TestMain`, and the count/delete query
helpers, together with proofs of the specified properties.

The external connectivity probe (`driver.VerifyConnectivity`) is modelled
as a function `probe : Nat → Option ε`: `probe a` is the outcome of the
probe invocation made when the attempt counter equals `a` (`none` =
success, `some e` = failure with a driver error value `e`).  Observable
behaviour (probe invocations, log lines, sleeps) is recorded as a trace
of `WaitAction`s.
-/

/-- An observable action of a readiness-wait run: a probe invocation
(tagged with the attempt-counter value at which it happens), a
`slog.Error` line for a failed attempt, the single `slog.Info` line on
success, or a `time.Sleep` of a number of seconds. -/
inductive WaitAction where
  | probe (attempt : Nat)
  | logFailure (attempt : Nat)
  | logSuccess
  | sleep (seconds : Nat)
deriving DecidableEq, Repr

/-- The exhaustion error returned by `waitFor` (main.go line 60): it
carries the number of attempts made, as in
`fmt.Errorf("could not connect ... %d attemps", attemps)`. -/
structure ConnectivityTimeout where
  attempts : Nat
deriving DecidableEq, Repr

/-- The loop of `waitFor` (main.go lines 49-64), entered with attempt
counter `attemps`; `max` is the bound hardcoded as `100` at line 59.
Each iteration increments the counter, invokes the probe, logs a failure
line or the success line, returns the exhaustion error when
`attemps > max` (checked after the probe and its log line), and
otherwise sleeps one second and continues. -/
def waitForAux {ε : Type} (probe : Nat → Option ε) (max attemps : Nat) :
    Except ConnectivityTimeout Unit × List WaitAction :=
  match probe (attemps + 1) with
  | none =>
      (Except.ok (), [WaitAction.probe (attemps + 1), WaitAction.logSuccess])
  | some _ =>
      if h : attemps + 1 > max then
        (Except.error ⟨attemps + 1⟩,
          [WaitAction.probe (attemps + 1), WaitAction.logFailure (attemps + 1)])
      else
        let rest := waitForAux probe max (attemps + 1)
        (rest.1, WaitAction.probe (attemps + 1) :: WaitAction.logFailure (attemps + 1)
          :: WaitAction.sleep 1 :: rest.2)
termination_by max + 1 - attemps
decreasing_by simp_wf; omega

/-- `waitFor` (main.go lines 47-66): the counter starts at `0` and the
hardcoded attempt bound is `100`. -/
def waitFor {ε : Type} (probe : Nat → Option ε) :
    Except ConnectivityTimeout Unit × List WaitAction :=
  waitForAux probe 100 0

/-- The attempt number of a probe action, if any. -/
def probeAttempt : WaitAction → Option Nat
  | WaitAction.probe a => some a
  | _ => none

/-- The attempt-counter values at which probe invocations happen, in
order. -/
def probeAttempts (t : List WaitAction) : List Nat :=
  t.filterMap probeAttempt

/-- Number of probe invocations recorded in a trace. -/
def numProbes (t : List WaitAction) : Nat :=
  (probeAttempts t).length

/-- The attempt number of a failure log line, if any. -/
def failureAttempt : WaitAction → Option Nat
  | WaitAction.logFailure a => some a
  | _ => none

/-- The attempt numbers carried by the failure log lines, in order. -/
def failureAttempts (t : List WaitAction) : List Nat :=
  t.filterMap failureAttempt

/-- How many success log lines a trace holds. -/
def successCount (t : List WaitAction) : Nat :=
  t.countP fun a => match a with
    | WaitAction.logSuccess => true
    | _ => false

/-- Whether an action is a probe invocation. -/
def isProbeAct : WaitAction → Bool
  | WaitAction.probe _ => true
  | _ => false

/-- Whether an action is a sleep. -/
def isSleepAct : WaitAction → Bool
  | WaitAction.sleep _ => true
  | _ => false

/-- A trace restricted to probe invocations and sleeps. -/
def probeSleepTrace (t : List WaitAction) : List WaitAction :=
  t.filter fun a => isProbeAct a || isSleepAct a

/-- The probe/sleep pattern of a loop that sleeps exactly one second
between consecutive probe invocations: given the list of attempt
numbers probed, one `sleep 1` separates each adjacent pair. -/
def alternateProbes : List Nat → List WaitAction
  | [] => []
  | [a] => [WaitAction.probe a]
  | a :: b :: rest =>
      WaitAction.probe a :: WaitAction.sleep 1 :: alternateProbes (b :: rest)

/-- The attempt number of the last probe invocation of a trace. -/
def lastProbeAttempt (t : List WaitAction) : Option Nat :=
  (probeAttempts t).getLast?

/-- One failed-probe step of a `waitFor` trace: the probe at attempt
`a`, its failure log line, and the one-second sleep before retrying. -/
def failStep (a : Nat) : List WaitAction :=
  [WaitAction.probe a, WaitAction.logFailure a, WaitAction.sleep 1]

/-- One failed-probe step of the test readiness loop: the probe at
attempt `a` and the one-second sleep — no log line. -/
def testStep (a : Nat) : List WaitAction :=
  [WaitAction.probe a, WaitAction.sleep 1]

/-- How the test harness's readiness loop ends: `ready` when the probe
succeeded and `m.Run()` is reached, or `fatalExit e` when the loop calls
`log.Fatalf("Could not connect to memgraph: %s", err)` — terminating the
whole process and carrying the last probe error `e` in the message. -/
inductive TestExit (ε : Type) where
  | ready
  | fatalExit (e : ε)
deriving DecidableEq, Repr

/-- The readiness loop of `TestMain` (main_test.go lines 72-85), entered
with attempt counter `attempts`; `max` is the bound hardcoded as `10` at
line 80.  Each iteration increments the counter and invokes the probe;
on success it breaks, on failure it emits no log line, calls
`log.Fatalf` when `attempts > max`, and otherwise sleeps one second and
continues. -/
def testWaitAux {ε : Type} (probe : Nat → Option ε) (max attempts : Nat) :
    TestExit ε × List WaitAction :=
  match probe (attempts + 1) with
  | none =>
      (TestExit.ready, [WaitAction.probe (attempts + 1)])
  | some e =>
      if h : attempts + 1 > max then
        (TestExit.fatalExit e, [WaitAction.probe (attempts + 1)])
      else
        let rest := testWaitAux probe max (attempts + 1)
        (rest.1, WaitAction.probe (attempts + 1) :: WaitAction.sleep 1 :: rest.2)
termination_by max + 1 - attempts
decreasing_by simp_wf; omega

/-- The readiness wait of `TestMain`: counter starts at `0`, the
hardcoded attempt bound is `10`. -/
def testReadinessWait {ε : Type} (probe : Nat → Option ε) :
    TestExit ε × List WaitAction :=
  testWaitAux probe 10 0

/-! Embedding of the query helpers `countAllNodes`, `countAllEdges`
(main.go lines 141-159) and `deleteEverything` (main_test.go lines
34-45).  The driver's `neo4j.ExecuteQuery` is modelled as a function
`exec : String → Except QueryError EagerResult` from the query text to
either a driver error or an eager result; records hold lists of typed
values, mirroring `Records []*Record` / `Values []any`. -/

/-- A driver error, kept opaque. -/
abbrev QueryError := String

/-- A value in a result record (`any` in Go); `int64` is the variant the
count helpers assert on, the others stand for every other dynamic type. -/
inductive BoltValue where
  | int64 (n : Int)
  | str (s : String)
  | boolean (b : Bool)
  | null
deriving DecidableEq, Repr

/-- A result record: an ordered list of values. -/
structure BoltRecord where
  Values : List BoltValue
deriving DecidableEq, Repr

/-- An eager query result: an ordered list of records. -/
structure EagerResult where
  Records : List BoltRecord
deriving DecidableEq, Repr

/-- Outcome of a Go function returning `(int64, error)`: either a normal
return of the pair, or a runtime panic (out-of-range index or failed
type assertion). -/
inductive GoCall (α : Type) where
  | ret (val : α) (err : Option QueryError)
  | panicked (msg : String)
deriving DecidableEq, Repr

/-- The query text of `countAllNodes` (main.go line 142). -/
def countAllNodesQuery : String := "MATCH (n) RETURN count(n);"

/-- The query text of `countAllEdges` (main.go line 152). -/
def countAllEdgesQuery : String := "MATCH ()-[]->() RETURN count(*);"

/-- The query text of `deleteEverything` (main_test.go line 38). -/
def deleteEverythingQuery : String := "MATCH (n) DETACH DELETE n;"

/-- `countAllNodes` (main.go lines 141-149): on a query error it returns
`(0, err)`; otherwise it evaluates `result.Records[0].Values[0].(int64)`
— panicking when there is no record, no value, or the first value is not
an `int64` — and returns `(n, nil)`. -/
def countAllNodes (exec : String → Except QueryError EagerResult) : GoCall Int :=
  match exec countAllNodesQuery with
  | Except.error e => GoCall.ret 0 (some e)
  | Except.ok result =>
      match result.Records with
      | [] => GoCall.panicked ("index out of range [0] with length 0")
      | record :: _ =>
          match record.Values with
          | [] => GoCall.panicked ("index out of range [0] with length 0")
          | BoltValue.int64 n :: _ => GoCall.ret n none
          | _ :: _ => GoCall.panicked ("interface conversion: interface is not int64")

/-- `countAllEdges` (main.go lines 151-159): same shape as
`countAllNodes` with the edge-count query. -/
def countAllEdges (exec : String → Except QueryError EagerResult) : GoCall Int :=
  match exec countAllEdgesQuery with
  | Except.error e => GoCall.ret 0 (some e)
  | Except.ok result =>
      match result.Records with
      | [] => GoCall.panicked ("index out of range [0] with length 0")
      | record :: _ =>
          match record.Values with
          | [] => GoCall.panicked ("index out of range [0] with length 0")
          | BoltValue.int64 n :: _ => GoCall.ret n none
          | _ :: _ => GoCall.panicked ("interface conversion: interface is not int64")

/-- Outcome of `deleteEverything`: a normal return of its `error` value,
or process termination through `log.Fatalf`. -/
inductive DeleteOutcome where
  | ret (err : Option QueryError)
  | fatalExit (e : QueryError)
deriving DecidableEq, Repr

/-- `deleteEverything` (main_test.go lines 34-45): on a query error it
calls `log.Fatalf` (terminating the process); otherwise it returns
`nil`. -/
def deleteEverything (exec : String → Except QueryError EagerResult) : DeleteOutcome :=
  match exec deleteEverythingQuery with
  | Except.error e => DeleteOutcome.fatalExit e
  | Except.ok _ => DeleteOutcome.ret none

theorem waitForAux_unfold {ε : Type} (probe : Nat → Option ε) (max attemps : Nat) :
    waitForAux probe max attemps =
      match probe (attemps + 1) with
      | none =>
          (Except.ok (), [WaitAction.probe (attemps + 1), WaitAction.logSuccess])
      | some _ =>
          if attemps + 1 > max then
            (Except.error ⟨attemps + 1⟩,
              [WaitAction.probe (attemps + 1), WaitAction.logFailure (attemps + 1)])
          else
            let rest := waitForAux probe max (attemps + 1)
            (rest.1, WaitAction.probe (attemps + 1) :: WaitAction.logFailure (attemps + 1)
              :: WaitAction.sleep 1 :: rest.2) := by
  rw [waitForAux]
  cases probe (attemps + 1) <;> simp

theorem testWaitAux_unfold {ε : Type} (probe : Nat → Option ε) (max attempts : Nat) :
    testWaitAux probe max attempts =
      match probe (attempts + 1) with
      | none =>
          (TestExit.ready, [WaitAction.probe (attempts + 1)])
      | some e =>
          if attempts + 1 > max then
            (TestExit.fatalExit e, [WaitAction.probe (attempts + 1)])
          else
            let rest := testWaitAux probe max (attempts + 1)
            (rest.1, WaitAction.probe (attempts + 1) :: WaitAction.sleep 1 :: rest.2) := by
  rw [testWaitAux]
  cases probe (attempts + 1) <;> simp

/-- Closed form of the `waitFor` loop when every probe from attempt
`att + 1` through attempt `max + 1` fails: the loop runs to exhaustion
and returns the timeout error carrying `max + 1` attempts. -/
theorem waitForAux_allFail {ε : Type} (p : Nat → Option ε) (max : Nat) :
    ∀ d att, max = att + d → (∀ a, att < a → a ≤ max + 1 → (p a).isSome) →
      waitForAux p max att =
        (Except.error ⟨max + 1⟩,
          (List.range' (att + 1) d).flatMap failStep ++
            [WaitAction.probe (max + 1), WaitAction.logFailure (max + 1)]) := by
  intro d
  induction d with
  | zero =>
      intro att hmax h
      have hatt : att = max := by omega
      subst hatt
      obtain ⟨e, he⟩ := Option.isSome_iff_exists.mp (h (att + 1) (by omega) (by omega))
      rw [waitForAux_unfold, he]
      simp
  | succ d ih =>
      intro att hmax h
      obtain ⟨e, he⟩ := Option.isSome_iff_exists.mp (h (att + 1) (by omega) (by omega))
      rw [waitForAux_unfold, he]
      rw [if_neg (by omega)]
      rw [ih (att + 1) (by omega) (fun a ha hb => h a (by omega) hb)]
      simp [List.range'_succ, failStep]

/-- Closed form of the `waitFor` loop when the probes at attempts
`att + 1 .. att + k` fail and the probe at attempt `att + k + 1`
succeeds, with `att + k ≤ max` so exhaustion is not reached: the loop
returns success. -/
theorem waitForAux_failsThenSucceeds {ε : Type} (p : Nat → Option ε) (max : Nat) :
    ∀ k att, (∀ a, att < a → a ≤ att + k → (p a).isSome) →
      p (att + k + 1) = none → att + k ≤ max →
      waitForAux p max att =
        (Except.ok (),
          (List.range' (att + 1) k).flatMap failStep ++
            [WaitAction.probe (att + k + 1), WaitAction.logSuccess]) := by
  intro k
  induction k with
  | zero =>
      intro att hf hs hmax
      rw [waitForAux_unfold, hs]
      simp
  | succ k ih =>
      intro att hf hs hmax
      obtain ⟨e, he⟩ := Option.isSome_iff_exists.mp (hf (att + 1) (by omega) (by omega))
      rw [waitForAux_unfold, he]
      rw [if_neg (by omega)]
      have hs' : p (att + 1 + k + 1) = none := by
        have harith : att + 1 + k + 1 = att + (k + 1) + 1 := by omega
        rw [harith]; exact hs
      rw [ih (att + 1) (fun a ha hb => hf a (by omega) (by omega)) hs' (by omega)]
      have harith : att + 1 + k + 1 = att + (k + 1) + 1 := by omega
      rw [harith]
      simp [List.range'_succ, failStep]

/-- Closed form of the test readiness loop when every probe from attempt
`att + 1` through attempt `max + 1` fails: the loop reaches
`log.Fatalf`, carrying the error of the last probe. -/
theorem testWaitAux_allFail {ε : Type} (p : Nat → Option ε) (max : Nat) (e : ε)
    (he : p (max + 1) = some e) :
    ∀ d att, max = att + d → (∀ a, att < a → a ≤ max + 1 → (p a).isSome) →
      testWaitAux p max att =
        (TestExit.fatalExit e,
          (List.range' (att + 1) d).flatMap testStep ++ [WaitAction.probe (max + 1)]) := by
  intro d
  induction d with
  | zero =>
      intro att hmax h
      have hatt : att = max := by omega
      subst hatt
      rw [testWaitAux_unfold, he]
      simp
  | succ d ih =>
      intro att hmax h
      obtain ⟨e', he'⟩ := Option.isSome_iff_exists.mp (h (att + 1) (by omega) (by omega))
      rw [testWaitAux_unfold, he']
      have hcond : ¬ (att + 1 > max) := by omega
      simp only [if_neg hcond]
      rw [ih (att + 1) (by omega) (fun a ha hb => h a (by omega) hb)]
      simp [List.range'_succ, testStep]

/-- Closed form of the test readiness loop when the probes at attempts
`att + 1 .. att + k` fail and the probe at attempt `att + k + 1`
succeeds, with `att + k ≤ max`: the loop breaks and `m.Run()` is
reached. -/
theorem testWaitAux_failsThenSucceeds {ε : Type} (p : Nat → Option ε) (max : Nat) :
    ∀ k att, (∀ a, att < a → a ≤ att + k → (p a).isSome) →
      p (att + k + 1) = none → att + k ≤ max →
      testWaitAux p max att =
        (TestExit.ready,
          (List.range' (att + 1) k).flatMap testStep ++
            [WaitAction.probe (att + k + 1)]) := by
  intro k
  induction k with
  | zero =>
      intro att hf hs hmax
      rw [testWaitAux_unfold, hs]
      simp
  | succ k ih =>
      intro att hf hs hmax
      obtain ⟨e, he⟩ := Option.isSome_iff_exists.mp (hf (att + 1) (by omega) (by omega))
      rw [testWaitAux_unfold, he]
      have hcond : ¬ (att + 1 > max) := by omega
      simp only [if_neg hcond]
      have hs' : p (att + 1 + k + 1) = none := by
        have harith : att + 1 + k + 1 = att + (k + 1) + 1 := by omega
        rw [harith]; exact hs
      rw [ih (att + 1) (fun a ha hb => hf a (by omega) (by omega)) hs' (by omega)]
      have harith : att + 1 + k + 1 = att + (k + 1) + 1 := by omega
      rw [harith]
      simp [List.range'_succ, testStep]

/-- Any probe either fails on every one of the attempts `1 .. max + 1`,
or there is a (unique least) `k ≤ max` such that attempts `1 .. k` fail
and attempt `k + 1` succeeds. -/
theorem probe_classify {ε : Type} (p : Nat → Option ε) (max : Nat) :
    (∀ a, 1 ≤ a → a ≤ max + 1 → (p a).isSome) ∨
      (∃ k, k ≤ max ∧ (∀ a, 1 ≤ a → a ≤ k → (p a).isSome) ∧ p (k + 1) = none) := by
  by_cases h : ∀ a, 1 ≤ a → a ≤ max + 1 → (p a).isSome
  · exact Or.inl h
  · right
    push_neg at h
    obtain ⟨a, ha1, ha2, ha3⟩ := h
    have ha3' : p a = none := Option.not_isSome_iff_eq_none.mp (by simpa using ha3)
    classical
    have hex : ∃ b, p (b + 1) = none ∧ b ≤ max := by
      have haa : a - 1 + 1 = a := by omega
      exact ⟨a - 1, by rw [haa]; exact ha3', by omega⟩
    have hspec := Nat.find_spec hex
    refine ⟨Nat.find hex, hspec.2, ?_, hspec.1⟩
    intro b hb1 hb2
    by_contra hbad
    have hbnone : p b = none := Option.not_isSome_iff_eq_none.mp (by simpa using hbad)
    have hlt : b - 1 < Nat.find hex := by omega
    refine Nat.find_min hex hlt ⟨?_, by omega⟩
    have hbb : b - 1 + 1 = b := by omega
    rw [hbb]
    exact hbnone

theorem probeAttempts_append (s t : List WaitAction) :
    probeAttempts (s ++ t) = probeAttempts s ++ probeAttempts t := by
  simp [probeAttempts]

theorem failureAttempts_append (s t : List WaitAction) :
    failureAttempts (s ++ t) = failureAttempts s ++ failureAttempts t := by
  simp [failureAttempts]

theorem successCount_append (s t : List WaitAction) :
    successCount (s ++ t) = successCount s + successCount t := by
  simp [successCount, List.countP_append]

theorem probeSleepTrace_append (s t : List WaitAction) :
    probeSleepTrace (s ++ t) = probeSleepTrace s ++ probeSleepTrace t := by
  simp [probeSleepTrace]

theorem probeAttempts_flatMap (f : Nat → List WaitAction)
    (hf : ∀ a, probeAttempts (f a) = [a]) :
    ∀ l : List Nat, probeAttempts (l.flatMap f) = l := by
  intro l
  induction l with
  | nil => rfl
  | cons a l ih =>
      rw [List.flatMap_cons, probeAttempts_append, hf, ih]
      rfl

theorem probeAttempts_failStep (a : Nat) : probeAttempts (failStep a) = [a] := by
  simp [failStep, probeAttempts, probeAttempt]

theorem probeAttempts_testStep (a : Nat) : probeAttempts (testStep a) = [a] := by
  simp [testStep, probeAttempts, probeAttempt]

theorem failureAttempts_flatMap_failStep (l : List Nat) :
    failureAttempts (l.flatMap failStep) = l := by
  induction l with
  | nil => rfl
  | cons a l ih =>
      rw [List.flatMap_cons, failureAttempts_append, ih]
      simp [failStep, failureAttempts, failureAttempt]

theorem failureAttempts_flatMap_testStep (l : List Nat) :
    failureAttempts (l.flatMap testStep) = [] := by
  induction l with
  | nil => rfl
  | cons a l ih =>
      rw [List.flatMap_cons, failureAttempts_append, ih]
      simp [testStep, failureAttempts, failureAttempt]

theorem successCount_flatMap_failStep (l : List Nat) :
    successCount (l.flatMap failStep) = 0 := by
  induction l with
  | nil => rfl
  | cons a l ih =>
      rw [List.flatMap_cons, successCount_append, ih]
      simp [failStep, successCount]

theorem alternateProbes_cons (a : Nat) (l : List Nat) (h : l ≠ []) :
    alternateProbes (a :: l) =
      WaitAction.probe a :: WaitAction.sleep 1 :: alternateProbes l := by
  cases l with
  | nil => exact absurd rfl h
  | cons b t => rfl

theorem alternate_of_steps (f : Nat → List WaitAction)
    (hf : ∀ a, probeSleepTrace (f a) = [WaitAction.probe a, WaitAction.sleep 1]) :
    ∀ n s m, probeSleepTrace ((List.range' s n).flatMap f) ++ [WaitAction.probe m] =
      alternateProbes (List.range' s n ++ [m]) := by
  intro n
  induction n with
  | zero =>
      intro s m
      simp [probeSleepTrace, alternateProbes]
  | succ n ih =>
      intro s m
      have hne : List.range' (s + 1) n ++ [m] ≠ [] := by simp
      rw [List.range'_succ, List.cons_append, alternateProbes_cons s _ hne, ← ih (s + 1) m]
      rw [List.flatMap_cons, probeSleepTrace_append, hf]
      simp

theorem probeSleepTrace_failStep (a : Nat) :
    probeSleepTrace (failStep a) = [WaitAction.probe a, WaitAction.sleep 1] := by
  simp [failStep, probeSleepTrace, isProbeAct, isSleepAct]

theorem probeSleepTrace_testStep (a : Nat) :
    probeSleepTrace (testStep a) = [WaitAction.probe a, WaitAction.sleep 1] := by
  simp [testStep, probeSleepTrace, isProbeAct, isSleepAct]

/-- `waitFor` when every probe of attempts `1 .. 101` fails. -/
theorem waitFor_allFail {ε : Type} (p : Nat → Option ε)
    (h : ∀ a, 1 ≤ a → a ≤ 101 → (p a).isSome) :
    waitFor p =
      (Except.error ⟨101⟩,
        (List.range' 1 100).flatMap failStep ++
          [WaitAction.probe 101, WaitAction.logFailure 101]) := by
  have := waitForAux_allFail p 100 100 0 (by omega) (fun a ha hb => h a (by omega) (by omega))
  simpa [waitFor] using this

/-- `waitFor` when the probes of attempts `1 .. k` fail and the probe of
attempt `k + 1` succeeds, `k ≤ 100`. -/
theorem waitFor_failsThenSucceeds {ε : Type} (p : Nat → Option ε) (k : Nat)
    (hf : ∀ a, 1 ≤ a → a ≤ k → (p a).isSome) (hs : p (k + 1) = none) (hk : k ≤ 100) :
    waitFor p =
      (Except.ok (),
        (List.range' 1 k).flatMap failStep ++
          [WaitAction.probe (k + 1), WaitAction.logSuccess]) := by
  have := waitForAux_failsThenSucceeds p 100 k 0
    (fun a ha hb => hf a (by omega) (by omega)) (by simpa using hs) (by omega)
  simpa [waitFor] using this

/-- The test readiness loop when every probe of attempts `1 .. 11`
fails. -/
theorem testReadinessWait_allFail {ε : Type} (p : Nat → Option ε) (e : ε)
    (he : p 11 = some e) (h : ∀ a, 1 ≤ a → a ≤ 11 → (p a).isSome) :
    testReadinessWait p =
      (TestExit.fatalExit e,
        (List.range' 1 10).flatMap testStep ++ [WaitAction.probe 11]) := by
  have := testWaitAux_allFail p 10 e he 10 0 (by omega)
    (fun a ha hb => h a (by omega) (by omega))
  simpa [testReadinessWait] using this

/-- The test readiness loop when the probes of attempts `1 .. k` fail
and the probe of attempt `k + 1` succeeds, `k ≤ 10`. -/
theorem testReadinessWait_failsThenSucceeds {ε : Type} (p : Nat → Option ε) (k : Nat)
    (hf : ∀ a, 1 ≤ a → a ≤ k → (p a).isSome) (hs : p (k + 1) = none) (hk : k ≤ 10) :
    testReadinessWait p =
      (TestExit.ready,
        (List.range' 1 k).flatMap testStep ++ [WaitAction.probe (k + 1)]) := by
  have := testWaitAux_failsThenSucceeds p 10 k 0
    (fun a ha hb => hf a (by omega) (by omega)) (by simpa using hs) (by omega)
  simpa [testReadinessWait] using this

/-- C1: for every probe that always fails, `waitFor` (max attempts 100)
fails with a `ConnectivityTimeout` error after exactly `max + 1 = 101`
probe invocations — not fewer, not more — because the boundary rule at
main.go line 59 is `attemps > 100`, not `==`. -/
theorem waitFor_exhaustion_after_101_probes {ε : Type} (p : Nat → Option ε)
    (h : ∀ a, (p a).isSome) :
    (waitFor p).1 = Except.error ⟨101⟩ ∧ numProbes (waitFor p).2 = 101 := by
  rw [waitFor_allFail p (fun a ha hb => h a)]
  refine ⟨rfl, ?_⟩
  rw [numProbes, probeAttempts_append,
    probeAttempts_flatMap failStep probeAttempts_failStep]
  simp [probeAttempts, probeAttempt]

theorem waitFor_exhaustion_after_101_probes_witness :
    (waitFor (fun _ => (some 0 : Option Nat))).1 = Except.error ⟨101⟩ ∧
      numProbes (waitFor (fun _ => (some 0 : Option Nat))).2 = 101 :=
  waitFor_exhaustion_after_101_probes (fun _ => (some 0 : Option Nat)) (fun _ => rfl)

/-- C2: for every `k < 100`, if the probe fails exactly `k` times and
then succeeds, `waitFor` returns success (`nil` error) after exactly
`k + 1` probe invocations and never produces a `ConnectivityTimeout`. -/
theorem waitFor_success_after_k_plus_one_probes {ε : Type} (p : Nat → Option ε)
    (k : Nat) (hk : k < 100) (hf : ∀ a, 1 ≤ a → a ≤ k → (p a).isSome)
    (hs : p (k + 1) = none) :
    (waitFor p).1 = Except.ok () ∧ numProbes (waitFor p).2 = k + 1 := by
  rw [waitFor_failsThenSucceeds p k hf hs (by omega)]
  refine ⟨rfl, ?_⟩
  rw [numProbes, probeAttempts_append,
    probeAttempts_flatMap failStep probeAttempts_failStep]
  simp [probeAttempts, probeAttempt]

theorem waitFor_success_after_k_plus_one_probes_witness :
    (waitFor (fun a => if a ≤ 3 then (some 0 : Option Nat) else none)).1 =
        Except.ok () ∧
      numProbes (waitFor (fun a => if a ≤ 3 then (some 0 : Option Nat) else none)).2 =
        3 + 1 :=
  waitFor_success_after_k_plus_one_probes _ 3 (by omega)
    (fun a h1 h3 => by simp [h3]) rfl

/-- C3: on exhaustion `waitFor` returns the `ConnectivityTimeout` error
— carrying the number of attempts made — to its caller as a value
(its return type is an error result, not a process exit, unlike the
test loop's `log.Fatalf`); and individual probe errors are never
propagated: the outcome of `waitFor` depends only on which probes fail,
never on the error values they fail with — even across different error
types. -/
theorem waitFor_timeout_propagation (ε₁ ε₂ : Type) :
    (∀ (p : Nat → Option ε₁) (q : Nat → Option ε₂),
        (∀ a, (p a).isSome = (q a).isSome) → waitFor p = waitFor q) ∧
      (∀ p : Nat → Option ε₁, (∀ a, (p a).isSome) →
        (waitFor p).1 = Except.error ⟨numProbes (waitFor p).2⟩) := by
  constructor
  · intro p q hpq
    rcases probe_classify p 100 with h | ⟨k, hk, hf, hs⟩
    · have hq : ∀ a, 1 ≤ a → a ≤ 101 → (q a).isSome := by
        intro a ha hb
        rw [← hpq a]
        exact h a ha hb
      rw [waitFor_allFail p h, waitFor_allFail q hq]
    · have hqf : ∀ a, 1 ≤ a → a ≤ k → (q a).isSome := by
        intro a ha hb
        rw [← hpq a]
        exact hf a ha hb
      have hqs : q (k + 1) = none := by
        have : (q (k + 1)).isSome = false := by
          rw [← hpq (k + 1), hs]
          rfl
        cases hqe : q (k + 1) with
        | none => rfl
        | some v => rw [hqe] at this; simp at this
      rw [waitFor_failsThenSucceeds p k hf hs hk,
        waitFor_failsThenSucceeds q k hqf hqs hk]
  · intro p h
    have h1 := waitFor_exhaustion_after_101_probes p h
    rw [h1.1, h1.2]

theorem waitFor_timeout_propagation_witness :
    (waitFor (fun _ => (some 0 : Option Nat)) =
        waitFor (fun _ => (some true : Option Bool))) ∧
      (waitFor (fun _ => (some 0 : Option Nat))).1 =
        Except.error ⟨numProbes (waitFor (fun _ => (some 0 : Option Nat))).2⟩ :=
  ⟨(waitFor_timeout_propagation Nat Bool).1 _ _ (fun _ => rfl),
    (waitFor_timeout_propagation Nat Bool).2 _ (fun _ => rfl)⟩

/-- C4: `waitFor` never returns success unless the most recent probe
invocation reported success: whenever the result is `Except.ok`, the
last probe invocation of the run was at some attempt `a` with
`p a = none`. -/
theorem waitFor_no_premature_success {ε : Type} (p : Nat → Option ε)
    (hok : (waitFor p).1 = Except.ok ()) :
    ∃ a, lastProbeAttempt (waitFor p).2 = some a ∧ p a = none := by
  rcases probe_classify p 100 with h | ⟨k, hk, hf, hs⟩
  · rw [waitFor_allFail p h] at hok
    simp at hok
  · refine ⟨k + 1, ?_, hs⟩
    rw [waitFor_failsThenSucceeds p k hf hs hk]
    rw [lastProbeAttempt, probeAttempts_append,
      probeAttempts_flatMap failStep probeAttempts_failStep]
    simp [probeAttempts, probeAttempt]

theorem waitFor_no_premature_success_witness :
    ∃ a, lastProbeAttempt (waitFor (fun _ => (none : Option Nat))).2 = some a ∧
      (fun _ => (none : Option Nat)) a = none :=
  waitFor_no_premature_success _ (by rw [waitFor, waitForAux_unfold])

theorem range'_one_concat (n : Nat) :
    List.range' 1 n ++ [n + 1] = List.range' 1 (n + 1) := by
  have h := @List.range'_concat 1 1 n
  simp only [one_mul] at h
  rw [h, Nat.add_comm 1 n]

/-- C5: within a single `waitFor` invocation the attempt counter starts
at zero and is incremented by exactly one per loop iteration, once per
probe: the counter values seen by the probe invocations are exactly
`1, 2, ..., n` — strictly increasing, never reset.  Each invocation of
`waitFor` restarts the recorded attempts from `1` (counter from `0`),
since `waitFor p = waitForAux p 100 0`. -/
theorem waitFor_counter_monotone {ε : Type} (p : Nat → Option ε) :
    probeAttempts (waitFor p).2 = List.range' 1 (numProbes (waitFor p).2) := by
  rcases probe_classify p 100 with h | ⟨k, hk, hf, hs⟩
  · rw [waitFor_allFail p h]
    decide
  · rw [waitFor_failsThenSucceeds p k hf hs hk]
    simp only [numProbes]
    rw [probeAttempts_append, probeAttempts_flatMap failStep probeAttempts_failStep]
    have htail : probeAttempts [WaitAction.probe (k + 1), WaitAction.logSuccess]
        = [k + 1] := by
      simp [probeAttempts, probeAttempt]
    rw [htail, range'_one_concat k, List.length_range']

/-- C6: the maximum attempt count is 100 in the production call site
(`waitFor`, probing `100 + 1 = 101` times on exhaustion) and 10 in the
test call site (`TestMain`'s loop, probing `10 + 1 = 11` times on
exhaustion), while the poll interval is a constant one second in both:
in every run, restricting the trace to probes and sleeps yields the
strictly alternating pattern with exactly one `sleep 1` between
consecutive probe invocations — no exponential backoff. -/
theorem retry_constants_and_fixed_delay (ε : Type) :
    (∀ p : Nat → Option ε,
        probeSleepTrace (waitFor p).2 = alternateProbes (probeAttempts (waitFor p).2)) ∧
      (∀ p : Nat → Option ε,
        probeSleepTrace (testReadinessWait p).2 =
          alternateProbes (probeAttempts (testReadinessWait p).2)) ∧
      (∀ p : Nat → Option ε, (∀ a, 1 ≤ a → a ≤ 101 → (p a).isSome) →
        numProbes (waitFor p).2 = 100 + 1) ∧
      (∀ p : Nat → Option ε, (∀ a, 1 ≤ a → a ≤ 11 → (p a).isSome) →
        numProbes (testReadinessWait p).2 = 10 + 1) := by
  refine ⟨?_, ?_, ?_, ?_⟩
  · intro p
    rcases probe_classify p 100 with h | ⟨k, hk, hf, hs⟩
    · rw [waitFor_allFail p h, probeSleepTrace_append, probeAttempts_append,
        probeAttempts_flatMap failStep probeAttempts_failStep]
      have htail1 : probeSleepTrace [WaitAction.probe 101, WaitAction.logFailure 101]
          = [WaitAction.probe 101] := by
        simp [probeSleepTrace, isProbeAct, isSleepAct]
      have htail2 : probeAttempts [WaitAction.probe 101, WaitAction.logFailure 101]
          = [101] := by
        simp [probeAttempts, probeAttempt]
      rw [htail1, htail2]
      exact alternate_of_steps failStep probeSleepTrace_failStep 100 1 101
    · rw [waitFor_failsThenSucceeds p k hf hs hk, probeSleepTrace_append,
        probeAttempts_append, probeAttempts_flatMap failStep probeAttempts_failStep]
      have htail1 : probeSleepTrace [WaitAction.probe (k + 1), WaitAction.logSuccess]
          = [WaitAction.probe (k + 1)] := by
        simp [probeSleepTrace, isProbeAct, isSleepAct]
      have htail2 : probeAttempts [WaitAction.probe (k + 1), WaitAction.logSuccess]
          = [k + 1] := by
        simp [probeAttempts, probeAttempt]
      rw [htail1, htail2]
      exact alternate_of_steps failStep probeSleepTrace_failStep k 1 (k + 1)
  · intro p
    rcases probe_classify p 10 with h | ⟨k, hk, hf, hs⟩
    · obtain ⟨e, he⟩ := Option.isSome_iff_exists.mp (h 11 (by omega) (by omega))
      rw [testReadinessWait_allFail p e he h, probeSleepTrace_append,
        probeAttempts_append, probeAttempts_flatMap testStep probeAttempts_testStep]
      have htail1 : probeSleepTrace [WaitAction.probe 11] = [WaitAction.probe 11] := by
        simp [probeSleepTrace, isProbeAct, isSleepAct]
      have htail2 : probeAttempts [WaitAction.probe 11] = [11] := by
        simp [probeAttempts, probeAttempt]
      rw [htail1, htail2]
      exact alternate_of_steps testStep probeSleepTrace_testStep 10 1 11
    · rw [testReadinessWait_failsThenSucceeds p k hf hs hk, probeSleepTrace_append,
        probeAttempts_append, probeAttempts_flatMap testStep probeAttempts_testStep]
      have htail1 : probeSleepTrace [WaitAction.probe (k + 1)]
          = [WaitAction.probe (k + 1)] := by
        simp [probeSleepTrace, isProbeAct, isSleepAct]
      have htail2 : probeAttempts [WaitAction.probe (k + 1)] = [k + 1] := by
        simp [probeAttempts, probeAttempt]
      rw [htail1, htail2]
      exact alternate_of_steps testStep probeSleepTrace_testStep k 1 (k + 1)
  · intro p h
    rw [waitFor_allFail p h]
    rfl
  · intro p h
    obtain ⟨e, he⟩ := Option.isSome_iff_exists.mp (h 11 (by omega) (by omega))
    rw [testReadinessWait_allFail p e he h]
    rfl

theorem retry_constants_and_fixed_delay_witness :
    numProbes (waitFor (fun _ => (some 0 : Option Nat))).2 = 100 + 1 ∧
      numProbes (testReadinessWait (fun _ => (some 0 : Option Nat))).2 = 10 + 1 :=
  ⟨(retry_constants_and_fixed_delay Nat).2.2.1 _ (fun _ _ _ => rfl),
    (retry_constants_and_fixed_delay Nat).2.2.2 _ (fun _ _ _ => rfl)⟩

/-- C7: `waitFor` emits one observability event per failed probe
attempt, carrying the current attempt number — the failure log lines
are exactly the failed entries of the probe sequence, in order — and
exactly one event on eventual success (one success log line when the
result is `ok`, none when it times out).  The events are diagnostic
only: they are a separate trace component, and by
`waitFor_timeout_propagation` the returned value depends only on the
probe outcomes. -/
theorem waitFor_observability_events (ε : Type) :
    (∀ p : Nat → Option ε,
        failureAttempts (waitFor p).2 =
          (probeAttempts (waitFor p).2).filter (fun a => (p a).isSome)) ∧
      (∀ p : Nat → Option ε,
        successCount (waitFor p).2 =
          match (waitFor p).1 with
          | Except.ok _ => 1
          | Except.error _ => 0) := by
  constructor
  · intro p
    rcases probe_classify p 100 with h | ⟨k, hk, hf, hs⟩
    · rw [waitFor_allFail p h, failureAttempts_append,
        failureAttempts_flatMap_failStep, probeAttempts_append,
        probeAttempts_flatMap failStep probeAttempts_failStep]
      have htail1 : failureAttempts
          [WaitAction.probe 101, WaitAction.logFailure 101] = [101] := by
        simp [failureAttempts, failureAttempt]
      have htail2 : probeAttempts
          [WaitAction.probe 101, WaitAction.logFailure 101] = [101] := by
        simp [probeAttempts, probeAttempt]
      rw [htail1, htail2]
      symm
      apply List.filter_eq_self.mpr
      intro a ha
      rw [List.mem_append] at ha
      rcases ha with ha | ha
      · rw [List.mem_range'_1] at ha
        exact h a (by omega) (by omega)
      · simp at ha
        subst ha
        exact h 101 (by omega) (by omega)
    · rw [waitFor_failsThenSucceeds p k hf hs hk, failureAttempts_append,
        failureAttempts_flatMap_failStep, probeAttempts_append,
        probeAttempts_flatMap failStep probeAttempts_failStep]
      have htail1 : failureAttempts
          [WaitAction.probe (k + 1), WaitAction.logSuccess] = [] := by
        simp [failureAttempts, failureAttempt]
      have htail2 : probeAttempts
          [WaitAction.probe (k + 1), WaitAction.logSuccess] = [k + 1] := by
        simp [probeAttempts, probeAttempt]
      rw [htail1, htail2, List.append_nil, List.filter_append]
      have h1 : (List.range' 1 k).filter (fun a => (p a).isSome)
          = List.range' 1 k := by
        apply List.filter_eq_self.mpr
        intro a ha
        rw [List.mem_range'_1] at ha
        exact hf a (by omega) (by omega)
      have h2 : ([k + 1] : List Nat).filter (fun a => (p a).isSome) = [] := by
        simp [hs]
      rw [h1, h2, List.append_nil]
  · intro p
    rcases probe_classify p 100 with h | ⟨k, hk, hf, hs⟩
    · rw [waitFor_allFail p h]
      rw [successCount_append, successCount_flatMap_failStep]
      rfl
    · rw [waitFor_failsThenSucceeds p k hf hs hk]
      rw [successCount_append, successCount_flatMap_failStep]
      rfl

/-- C8: `countAllNodes` and `countAllEdges` are not total on the
query-result shape: when the query itself errors they return
`(0, error)`, but a successful result with zero records, or one whose
first value is not an `int64`, makes the unchecked
`Records[0].Values[0].(int64)` panic. -/
theorem count_helpers_not_total :
    (∀ (exec : String → Except QueryError EagerResult) (e : QueryError),
        exec countAllNodesQuery = Except.error e →
          countAllNodes exec = GoCall.ret 0 (some e)) ∧
      (∀ exec, exec countAllNodesQuery = Except.ok ⟨[]⟩ →
        ∃ msg, countAllNodes exec = GoCall.panicked msg) ∧
      (∀ exec v vs rs, exec countAllNodesQuery = Except.ok ⟨⟨v :: vs⟩ :: rs⟩ →
        (∀ n : Int, v ≠ BoltValue.int64 n) →
        ∃ msg, countAllNodes exec = GoCall.panicked msg) ∧
      (∀ (exec : String → Except QueryError EagerResult) (e : QueryError),
        exec countAllEdgesQuery = Except.error e →
          countAllEdges exec = GoCall.ret 0 (some e)) ∧
      (∀ exec, exec countAllEdgesQuery = Except.ok ⟨[]⟩ →
        ∃ msg, countAllEdges exec = GoCall.panicked msg) ∧
      (∀ exec v vs rs, exec countAllEdgesQuery = Except.ok ⟨⟨v :: vs⟩ :: rs⟩ →
        (∀ n : Int, v ≠ BoltValue.int64 n) →
        ∃ msg, countAllEdges exec = GoCall.panicked msg) := by
  refine ⟨?_, ?_, ?_, ?_, ?_, ?_⟩
  · intro exec e he
    rw [countAllNodes, he]
  · intro exec he
    rw [countAllNodes, he]
    exact ⟨_, rfl⟩
  · intro exec v vs rs he hv
    rw [countAllNodes, he]
    cases v with
    | int64 n => exact absurd rfl (hv n)
    | str s => exact ⟨_, rfl⟩
    | boolean b => exact ⟨_, rfl⟩
    | null => exact ⟨_, rfl⟩
  · intro exec e he
    rw [countAllEdges, he]
  · intro exec he
    rw [countAllEdges, he]
    exact ⟨_, rfl⟩
  · intro exec v vs rs he hv
    rw [countAllEdges, he]
    cases v with
    | int64 n => exact absurd rfl (hv n)
    | str s => exact ⟨_, rfl⟩
    | boolean b => exact ⟨_, rfl⟩
    | null => exact ⟨_, rfl⟩

theorem count_helpers_not_total_witness :
    countAllNodes (fun _ => Except.error ("boom")) = GoCall.ret 0 (some ("boom")) ∧
      (∃ msg, countAllNodes (fun _ => Except.ok ⟨[]⟩) = GoCall.panicked msg) ∧
      (∃ msg, countAllNodes (fun _ => Except.ok ⟨[⟨[BoltValue.null]⟩]⟩)
        = GoCall.panicked msg) ∧
      countAllEdges (fun _ => Except.error ("boom")) = GoCall.ret 0 (some ("boom")) ∧
      (∃ msg, countAllEdges (fun _ => Except.ok ⟨[]⟩) = GoCall.panicked msg) ∧
      (∃ msg, countAllEdges (fun _ => Except.ok ⟨[⟨[BoltValue.null]⟩]⟩)
        = GoCall.panicked msg) :=
  ⟨count_helpers_not_total.1 _ _ rfl,
    count_helpers_not_total.2.1 _ rfl,
    count_helpers_not_total.2.2.1 _ BoltValue.null [] [] rfl
      (fun _ h => BoltValue.noConfusion h),
    count_helpers_not_total.2.2.2.1 _ _ rfl,
    count_helpers_not_total.2.2.2.2.1 _ rfl,
    count_helpers_not_total.2.2.2.2.2 _ BoltValue.null [] [] rfl
      (fun _ h => BoltValue.noConfusion h)⟩

/-- C9: `deleteEverything` never returns a non-nil error: on any query
failure it terminates the whole process via `log.Fatalf` instead of
propagating the error, so whenever it does return, its error value is
`nil`. -/
theorem deleteEverything_error_always_nil :
    (∀ (exec : String → Except QueryError EagerResult) (err : Option QueryError),
        deleteEverything exec = DeleteOutcome.ret err → err = none) ∧
      (∀ (exec : String → Except QueryError EagerResult) (e : QueryError),
        exec deleteEverythingQuery = Except.error e →
          deleteEverything exec = DeleteOutcome.fatalExit e) := by
  constructor
  · intro exec err h
    rw [deleteEverything] at h
    cases hq : exec deleteEverythingQuery with
    | error e => rw [hq] at h; exact absurd h (by simp)
    | ok r => rw [hq] at h; cases h; rfl
  · intro exec e he
    rw [deleteEverything, he]

theorem deleteEverything_error_always_nil_witness :
    (none : Option QueryError) = none ∧
      deleteEverything (fun _ => Except.error ("boom"))
        = DeleteOutcome.fatalExit ("boom") :=
  ⟨deleteEverything_error_always_nil.1 (fun _ => Except.ok ⟨[]⟩) none rfl,
    deleteEverything_error_always_nil.2 (fun _ => Except.error ("boom")) ("boom") rfl⟩

/-- C10: the test harness's readiness loop in `TestMain` is not a call
to `waitFor` and differs from it beyond the max-attempt constant: it
emits no diagnostic event per failed attempt (for every probe, its
trace has no failure log line), and on exhaustion — 11 consecutive
probe failures — it terminates the process via `log.Fatalf` (carrying
the last probe error) instead of returning an error value, whereas
`waitFor` on the same exhausted probe returns the `ConnectivityTimeout`
error value and logs every one of its 101 failures. -/
theorem test_readiness_loop_differs_from_waitFor (ε : Type) :
    (∀ p : Nat → Option ε, failureAttempts (testReadinessWait p).2 = []) ∧
      (∀ p : Nat → Option ε, (∀ a, 1 ≤ a → a ≤ 11 → (p a).isSome) →
        ∃ e, p 11 = some e ∧ (testReadinessWait p).1 = TestExit.fatalExit e ∧
          numProbes (testReadinessWait p).2 = 11) ∧
      (∀ p : Nat → Option ε, (∀ a, 1 ≤ a → a ≤ 101 → (p a).isSome) →
        (waitFor p).1 = Except.error ⟨101⟩ ∧
          failureAttempts (waitFor p).2 = List.range' 1 101) := by
  refine ⟨?_, ?_, ?_⟩
  · intro p
    rcases probe_classify p 10 with h | ⟨k, hk, hf, hs⟩
    · obtain ⟨e, he⟩ := Option.isSome_iff_exists.mp (h 11 (by omega) (by omega))
      rw [testReadinessWait_allFail p e he h, failureAttempts_append,
        failureAttempts_flatMap_testStep]
      rfl
    · rw [testReadinessWait_failsThenSucceeds p k hf hs hk, failureAttempts_append,
        failureAttempts_flatMap_testStep]
      rfl
  · intro p h
    obtain ⟨e, he⟩ := Option.isSome_iff_exists.mp (h 11 (by omega) (by omega))
    refine ⟨e, he, ?_, ?_⟩
    · rw [testReadinessWait_allFail p e he h]
    · rw [testReadinessWait_allFail p e he h]
      rfl
  · intro p h
    constructor
    · rw [waitFor_allFail p h]
    · rw [waitFor_allFail p h, failureAttempts_append,
        failureAttempts_flatMap_failStep]
      have htail : failureAttempts
          [WaitAction.probe 101, WaitAction.logFailure 101] = [101] := by
        simp [failureAttempts, failureAttempt]
      rw [htail, range'_one_concat 100]

theorem test_readiness_loop_differs_from_waitFor_witness :
    failureAttempts (testReadinessWait (fun _ => (some 0 : Option Nat))).2 = [] ∧
      (∃ e, (fun _ => (some 0 : Option Nat)) 11 = some e ∧
        (testReadinessWait (fun _ => (some 0 : Option Nat))).1 = TestExit.fatalExit e ∧
        numProbes (testReadinessWait (fun _ => (some 0 : Option Nat))).2 = 11) ∧
      ((waitFor (fun _ => (some 0 : Option Nat))).1 = Except.error ⟨101⟩ ∧
        failureAttempts (waitFor (fun _ => (some 0 : Option Nat))).2 =
          List.range' 1 101) :=
  ⟨(test_readiness_loop_differs_from_waitFor Nat).1 (fun _ => (some 0 : Option Nat)),
    (test_readiness_loop_differs_from_waitFor Nat).2.1
      (fun _ => (some 0 : Option Nat)) (fun _ _ _ => rfl),
    (test_readiness_loop_differs_from_waitFor Nat).2.2
      (fun _ => (some 0 : Option Nat)) (fun _ _ _ => rfl)⟩
